import Mathlib

/-!
Shallow embedding of `src/app.py` (a streamlit dashboard that loads an Excel
sheet of fundraising statistics with `load_data` and renders a chart).

A spreadsheet as returned by `pd.read_excel` is modelled column-major: a list
of named columns of cells.  A cell is either null (NaN), a string, or a
number (floats are modelled as rationals).  Raising an exception is modelled
by `Option`: `none` means the Python code raises.
-/

inductive Cell where
  | null : Cell
  | str : String → Cell
  | num : Rat → Cell
deriving DecidableEq

abbrev Col := String × List Cell
abbrev Sheet := List Col

def Cell.isNull : Cell → Bool
  | .null => true
  | _ => false

def Cell.isStr : Cell → Bool
  | .str _ => true
  | _ => false

/-- `str(cell)` as pandas' `astype(str)` renders it: NaN renders as "nan",
floats with a trailing ".0" when integral. -/
def cellStr : Cell → String
  | .null => "nan"
  | .str s => s
  | .num q => if q.den = 1 then toString q.num ++ ".0" else toString q

/-- `str.lower()` (ASCII, which covers every header keyword). -/
def toLowerStr (s : String) : String :=
  String.mk (s.toList.map Char.toLower)

/-- `str.startswith(pre)`. -/
def startsWithStr (s pre : String) : Bool :=
  pre.toList.isPrefixOf s.toList

/-- Whitespace trimming on a character list (model of `str.strip()` /
`pandas.Series.str.strip()`). -/
def trimChars (l : List Char) : List Char :=
  ((l.dropWhile Char.isWhitespace).reverse.dropWhile Char.isWhitespace).reverse

/-- `.str.strip()` on one rendered cell. -/
def stripStr (s : String) : String :=
  String.mk (trimChars s.toList)

/-- Value of a big-endian list of decimal digit characters. -/
def digitsVal (l : List Char) : Nat :=
  l.foldl (fun a c => 10 * a + (c.toNat - 48)) 0

/-- Parse an unsigned decimal literal (digits, optionally a dot and more
digits), as accepted by `pd.to_numeric` after sign removal. -/
def parseDigits (l : List Char) : Option Rat :=
  let ip := l.takeWhile Char.isDigit
  match l.dropWhile Char.isDigit with
  | [] => if ip.isEmpty then none else some ((digitsVal ip : Nat) : Rat)
  | '.' :: fr =>
      if fr.all Char.isDigit && !(ip.isEmpty && fr.isEmpty) then
        some ((digitsVal ip : Nat) + ((digitsVal fr : Nat) : Rat) / (10 : Rat) ^ fr.length)
      else none
  | _ => none

/-- Model of `pd.to_numeric(·, errors="coerce")` applied to one rendered
string: tolerate surrounding whitespace and an optional sign; anything else
non-numeric coerces to NaN (`none`). -/
def parseNum (l : List Char) : Option Rat :=
  match trimChars l with
  | [] => none
  | c :: rest =>
      if c = '-' then (parseDigits rest).map (fun q => -q)
      else if c = '+' then parseDigits rest
      else parseDigits (c :: rest)

/-- `series.astype(str).str.replace(r"[$,]", "", regex=True)` on one cell's
characters. -/
def stripCurrencyChars (l : List Char) : List Char :=
  l.filter (fun c => !(c == '$' || c == ','))

/-- Model of the `to_number` helper in `load_data`: render the cell as a
string, delete `$` and `,`, coerce to a number, with failures becoming NaN
(`none`).  A NaN cell renders as "nan" which coerces back to NaN; a numeric
cell round-trips through its decimal rendering to the same value. -/
def to_number : Cell → Option Rat
  | .null => none
  | .num q => some q
  | .str s => parseNum (stripCurrencyChars s.toList)

/-- Model of the `is_symbol_col` helper: a column whose dtype is `object`
(it holds at least one string), whose non-null values rendered and stripped
are all one single value which is a lone currency symbol or empty. -/
def is_symbol_col (cells : List Cell) : Bool :=
  if cells.any Cell.isStr then
    match (cells.filter (fun c => !c.isNull)).map (fun c => stripStr (cellStr c)) with
    | [] => false
    | v :: rest => rest.all (fun w => w == v) && (v == "$" || v == "USD" || v == "US$" || v == "")
  else false

/-- `df.dropna(axis=1, how="all")`: drop columns all of whose cells are NaN
(this also drops columns of a zero-row frame). -/
def dropAllNull (s : Sheet) : Sheet :=
  s.filter (fun c => !(c.2.all Cell.isNull))

/-- `df = df[[c for c in df.columns if not is_symbol_col(df[c])]]`. -/
def dropSymbolCols (s : Sheet) : Sheet :=
  s.filter (fun c => !(is_symbol_col c.2))

/-- Number of rows of the frame (length of its first column). -/
def nrows (s : Sheet) : Nat :=
  match s with
  | [] => 0
  | c :: _ => c.2.length

/-- The header-promotion step: if every column name starts with "Unnamed"
and the first row (rendered and stripped) contains a letter, make the first
row the header and drop it.  `df.iloc[0]` raises on an empty frame, which
is modelled by `none`. -/
def promote (s : Sheet) : Option Sheet :=
  if s.all (fun c => startsWithStr c.1 "Unnamed") then
    if nrows s = 0 then none
    else
      if (s.map (fun c => stripStr (cellStr (c.2.headD Cell.null)))).any
          (fun v => v.toList.any Char.isAlpha) then
        some ((s.zip (s.map (fun c => stripStr (cellStr (c.2.headD Cell.null))))).map
          (fun p => (p.2, p.1.2.drop 1)))
      else some s
  else some s

/-- Substring test: `kw in name` on Python strings. -/
def hasKw (name kw : String) : Bool :=
  decide (kw.toList <:+: name.toList)

/-- The four loop variables `year_col`, `num_col`, `amount_col`, `avg_col`. -/
structure Picks where
  year? : Option String := none
  num? : Option String := none
  amount? : Option String := none
  avg? : Option String := none
deriving DecidableEq

/-- One iteration of the keyword-matching loop over `cols`. -/
def pickStep (p : Picks) (c : String) : Picks :=
  let n := toLowerStr c
  if p.year?.isNone && hasKw n "year" then { p with year? := some c }
  else if p.num?.isNone && (hasKw n "number" || hasKw n "funds") && !hasKw n "avg" then
    { p with num? := some c }
  else if p.amount?.isNone && (hasKw n "amount" || hasKw n "closed" || hasKw n "total") then
    { p with amount? := some c }
  else if p.avg?.isNone && (hasKw n "average" || hasKw n "avg") then
    { p with avg? := some c }
  else p

def pickLoop (cols : List String) : Picks :=
  cols.foldl pickStep {}

/-- The positional fallbacks `year_col = cols[0]`, ..., `avg_col = cols[3]`
applied when a pick is still `None` and enough columns exist. -/
def fillPositional (cols : List String) (p : Picks) : Picks :=
  { year? := p.year? <|> cols.get? 0
    num? := p.num? <|> cols.get? 1
    amount? := p.amount? <|> cols.get? 2
    avg? := p.avg? <|> cols.get? 3 }

/-- `df[n]` for a single label: the unique column with that name.  Zero
matches raise `KeyError`; several matches return a `DataFrame` on which the
subsequent `.dtype` / `.str` accesses raise.  Both are modelled by `none`. -/
def getCol (s : Sheet) (n : String) : Option (List Cell) :=
  match s.filter (fun c => c.1 == n) with
  | [c] => some c.2
  | _ => none

def canonKeys : List String :=
  ["Year", "Number of Funds", "Total Amount", "Average Fund Size"]

/-- The `header_map` renaming dictionary, as a function on its keys. -/
def header_map (k : String) : String :=
  if k == "Total Amount" then "Amount Closed" else k

def outNames : List String :=
  ["Year", "Number of Funds", "Amount Closed", "Average Fund Size"]

/-- `all(k in df.columns for k in header_map.keys())`. -/
def exactPathApplies (s : Sheet) : Bool :=
  canonKeys.all (fun k => (s.map Prod.fst).contains k)

/-- `out = df[list(header_map.keys())].rename(columns=header_map)`. -/
def mkOutExact (s : Sheet) : Option (List (String × List Cell)) := do
  let ys ← getCol s "Year"
  let ns ← getCol s "Number of Funds"
  let as_ ← getCol s "Total Amount"
  let vs ← getCol s "Average Fund Size"
  some [(header_map "Year", ys), (header_map "Number of Funds", ns),
        (header_map "Total Amount", as_), (header_map "Average Fund Size", vs)]

/-- A coerced numeric series stored back into a frame: NaN for `none`. -/
def optToCell : Option Rat → Cell
  | none => Cell.null
  | some q => Cell.num q

/-- `to_number(df[c])` as a stored column. -/
def coerceCells (cs : List Cell) : List Cell :=
  cs.map (fun c => optToCell (to_number c))

/-- The keyword/positional path: pick columns, then build
`pd.DataFrame({"Year": to_number(df[year_col]), ...})`.  A `None` label for
one of the three metrics gives an all-NaN column; a `None` year label or a
failing lookup raises. -/
def mkOutKeyword (s : Sheet) : Option (List (String × List Cell)) := do
  let cols := s.map Prod.fst
  let p := fillPositional cols (pickLoop cols)
  let yn ← p.year?
  let ys ← getCol s yn
  let resolve : Option String → Option (List Cell) := fun o =>
    match o with
    | none => some (List.replicate (nrows s) Cell.null)
    | some n => (getCol s n).map coerceCells
  let ns ← resolve p.num?
  let as_ ← resolve p.amount?
  let vs ← resolve p.avg?
  some [("Year", coerceCells ys), ("Number of Funds", ns),
        ("Amount Closed", as_), ("Average Fund Size", vs)]

/-- One row of the final table. -/
structure Row where
  year : Int
  numFunds : Option Rat
  amountClosed : Option Rat
  avgFundSize : Option Rat
deriving DecidableEq

/-- The final table: column names plus rows. -/
structure Frame where
  names : List String
  rows : List Row
deriving DecidableEq

/-- Python's `int()` on a float: truncation toward zero. -/
def ratTrunc (q : Rat) : Int :=
  if 0 ≤ q then ⌊q⌋ else ⌈q⌉

def zip4 {α β γ δ : Type} : List α → List β → List γ → List δ → List (α × β × γ × δ)
  | a :: as, b :: bs, c :: cs, d :: ds => (a, b, c, d) :: zip4 as bs cs ds
  | _, _, _, _ => []

/-- `out.dropna(subset=["Year"])` followed by `out["Year"].astype(int)`,
on the four coerced columns read row-wise. -/
def buildRows (ys ns as_ vs : List (Option Rat)) : List Row :=
  (zip4 ys ns as_ vs).filterMap
    (fun x => x.1.map (fun qy => Row.mk (ratTrunc qy) x.2.1 x.2.2.1 x.2.2.2))

/-- `to_number(out[c])` for the final coercion pass over the four columns. -/
def coerceCol (cs : List Cell) : List (Option Rat) :=
  cs.map to_number

def rowLE (a b : Row) : Prop :=
  a.year ≤ b.year

instance : DecidableRel rowLE := fun a b => Int.decLe a.year b.year

instance : IsTotal Row rowLE := ⟨fun a b => Int.le_total a.year b.year⟩

instance : IsTrans Row rowLE := ⟨fun _ _ _ h₁ h₂ => Int.le_trans h₁ h₂⟩

/-- `out.sort_values("Year")`. -/
def sortRows (l : List Row) : List Row :=
  l.insertionSort rowLE

/-- The four coerced/filtered/converted columns of `out` read off as rows
(the code always reaches this point with exactly four columns). -/
def rowsOf (out : List (String × List Cell)) : List Row :=
  match out with
  | [y, n, a, v] => buildRows (coerceCol y.2) (coerceCol n.2) (coerceCol a.2) (coerceCol v.2)
  | _ => []

/-- `load_data` up to (and including) building `out`, before the final
coercion/filter/sort: drop all-NaN columns, fail on duplicate labels (the
`df[c]` lookups in the symbol-column pass raise on them), drop lone-symbol
columns, maybe promote the first row to headers, then map columns by the
exact-header path or the keyword/positional path. -/
def preframe (s0 : Sheet) : Option (List (String × List Cell)) := do
  let s1 := dropAllNull s0
  if (s1.map Prod.fst).Nodup then
    let s2 ← promote (dropSymbolCols s1)
    if exactPathApplies s2 then mkOutExact s2 else mkOutKeyword s2
  else none

/-- The whole of `load_data` (after `pd.read_excel`): `none` models an
exception escaping to the caller. -/
def load_data (s0 : Sheet) : Option Frame :=
  (preframe s0).map (fun out => Frame.mk (out.map Prod.fst) (sortRows (rowsOf out)))

/-- Outcome of the top-level script: either an error message was shown and
the script stopped (`st.error` + `st.stop`), or the chart was rendered from
a loaded frame. -/
inductive Outcome where
  | errorStop : String → Outcome
  | rendered : Frame → Outcome
deriving DecidableEq

/-- The top-level flow around `load_data`: the missing-file guard and the
`try/except` wrapper.  `readResult = none` models `pd.read_excel` raising
(e.g. an unparseable file). -/
def appMain (fileExists : Bool) (readResult : Option Sheet) : Outcome :=
  if fileExists then
    match readResult with
    | none => Outcome.errorStop "Failed to read the Excel file. Please check the file format and headers."
    | some s =>
        match load_data s with
        | none => Outcome.errorStop "Failed to read the Excel file. Please check the file format and headers."
        | some f => Outcome.rendered f
  else Outcome.errorStop "Data file not found"

/-- A cell occurring somewhere in the input sheet. -/
def inSheet (s : Sheet) (c : Cell) : Prop :=
  ∃ p ∈ s, c ∈ p.2

/-- The eight keywords of the fuzzy matching loop. -/
def keywords : List String :=
  ["year", "number", "funds", "amount", "closed", "total", "average", "avg"]

/-- Spec-side description for the canonical-header half of the column-mapping
claim: each output column is the input column of the same (pre-rename) name,
coerced, filtered on Year and sorted. -/
def specNamed (s : Sheet) : Option (List Row) := do
  let ys ← getCol s "Year"
  let ns ← getCol s "Number of Funds"
  let as_ ← getCol s "Total Amount"
  let vs ← getCol s "Average Fund Size"
  some (sortRows (buildRows (coerceCol ys) (coerceCol ns) (coerceCol as_) (coerceCol vs)))

/-- Spec-side description for the unheaded half of the column-mapping claim:
the four output columns are input columns 1, 2, 3, 4 in order, coerced,
filtered on Year and sorted. -/
def specPositional (s : Sheet) : Option (List Row) := do
  let c0 ← s.get? 0
  let c1 ← s.get? 1
  let c2 ← s.get? 2
  let c3 ← s.get? 3
  some (sortRows (buildRows (coerceCol c0.2) (coerceCol c1.2) (coerceCol c2.2) (coerceCol c3.2)))

/-- Spec-side predicate for the symbol-column claim: the column has a
non-null value, and all its non-null values are strings that strip to one
single lone currency symbol (or the empty string). -/
def loneSymbolCol (cells : List Cell) : Prop :=
  (∃ c ∈ cells, c ≠ Cell.null) ∧
    ∃ v ∈ (["$", "USD", "US$", ""] : List String),
      ∀ c ∈ cells, c ≠ Cell.null → ∃ w, c = Cell.str w ∧ stripStr w = v

/-! ### Helper lemmas -/

@[simp]
theorem to_number_optToCell (o : Option Rat) : to_number (optToCell o) = o := by
  cases o <;> rfl

@[simp]
theorem coerceCol_coerceCells (cs : List Cell) : coerceCol (coerceCells cs) = coerceCol cs := by
  simp [coerceCol, coerceCells]

theorem sortRows_perm (l : List Row) : (sortRows l).Perm l :=
  List.perm_insertionSort rowLE l

theorem sorted_sortRows (l : List Row) : (sortRows l).Sorted rowLE :=
  List.sorted_insertionSort rowLE l

theorem mem_zip4 {α β γ δ : Type} {x : α × β × γ × δ} :
    ∀ {as : List α} {bs : List β} {cs : List γ} {ds : List δ},
      x ∈ zip4 as bs cs ds → x.1 ∈ as ∧ x.2.1 ∈ bs ∧ x.2.2.1 ∈ cs ∧ x.2.2.2 ∈ ds
  | a :: as, b :: bs, c :: cs, d :: ds, hx => by
      rw [zip4] at hx
      rcases List.mem_cons.mp hx with h | h
      · subst h; simp
      · have ih := @mem_zip4 _ _ _ _ x as bs cs ds h
        exact ⟨List.mem_cons_of_mem _ ih.1, List.mem_cons_of_mem _ ih.2.1,
          List.mem_cons_of_mem _ ih.2.2.1, List.mem_cons_of_mem _ ih.2.2.2⟩

theorem getCol_mem {s : Sheet} {n : String} {cs : List Cell}
    (h : getCol s n = some cs) : ∃ p ∈ s, p.1 = n ∧ p.2 = cs := by
  rw [getCol] at h
  split at h
  · rename_i p heq
    have hp : p ∈ s.filter (fun c => c.1 == n) := by rw [heq]; simp
    have := List.mem_filter.mp hp
    cases h
    exact ⟨p, this.1, by simpa using this.2, rfl⟩
  · cases h

theorem getCol_of_nodup {s : Sheet} {p : Col}
    (hnd : (s.map Prod.fst).Nodup) (hp : p ∈ s) : getCol s p.1 = some p.2 := by
  induction s with
  | nil => cases hp
  | cons q t ih =>
      rw [List.map_cons, List.nodup_cons] at hnd
      rcases List.mem_cons.mp hp with h | h
      · subst h
        have ht : t.filter (fun c => c.1 == p.1) = [] := by
          rw [List.filter_eq_nil_iff]
          intro c hc
          simp only [beq_iff_eq]
          intro hcp
          exact hnd.1 (hcp ▸ List.mem_map_of_mem Prod.fst hc)
        simp [getCol, ht]
      · have hne : q.1 ≠ p.1 := by
          intro he
          exact hnd.1 (he ▸ List.mem_map_of_mem Prod.fst h)
        have := ih hnd.2 h
        rw [getCol] at this ⊢
        simpa [List.filter_cons, hne] using this

theorem promote_cells {s s' : Sheet} (h : promote s = some s') :
    ∀ p' ∈ s', ∃ p ∈ s, ∀ c ∈ p'.2, c ∈ p.2 := by
  intro p' hp'
  rw [promote] at h
  split at h
  · split at h
    · cases h
    · split at h
      · cases h
        rcases List.mem_map.mp hp' with ⟨q, hq, hqe⟩
        have hq1 : q.1 ∈ s := (List.of_mem_zip hq).1
        refine ⟨q.1, hq1, ?_⟩
        intro c hc
        rw [← hqe] at hc
        exact (List.drop_sublist 1 q.1.2).mem hc
      · cases h
        exact ⟨p', hp', fun c hc => hc⟩
  · cases h
    exact ⟨p', hp', fun c hc => hc⟩

theorem dropAllNull_sub {s : Sheet} {p : Col} (h : p ∈ dropAllNull s) : p ∈ s :=
  List.mem_of_mem_filter h

theorem dropSymbolCols_sub {s : Sheet} {p : Col} (h : p ∈ dropSymbolCols s) : p ∈ s :=
  List.mem_of_mem_filter h

/-- Cells of the sheet that reaches the column-mapping step all come from the
original sheet. -/
theorem stage_cells {s0 s2 : Sheet}
    (h : promote (dropSymbolCols (dropAllNull s0)) = some s2) :
    ∀ p ∈ s2, ∀ c ∈ p.2, inSheet s0 c := by
  intro p hp c hc
  rcases promote_cells h p hp with ⟨q, hq, hsub⟩
  exact ⟨q, dropAllNull_sub (dropSymbolCols_sub hq), hsub c hc⟩

/-- Decompose a successful `preframe` run into its stages. -/
theorem preframe_cases {s0 : Sheet} {out : List (String × List Cell)}
    (h : preframe s0 = some out) :
    ∃ s2, ((dropAllNull s0).map Prod.fst).Nodup ∧
      promote (dropSymbolCols (dropAllNull s0)) = some s2 ∧
      ((exactPathApplies s2 = true ∧ mkOutExact s2 = some out) ∨
        (exactPathApplies s2 = false ∧ mkOutKeyword s2 = some out)) := by
  rw [preframe] at h
  split at h
  · rename_i hnd
    cases hp : promote (dropSymbolCols (dropAllNull s0)) with
    | none => rw [hp] at h; cases h
    | some s2 =>
        rw [hp] at h
        replace h : (if exactPathApplies s2 = true then mkOutExact s2 else mkOutKeyword s2)
            = some out := h
        refine ⟨s2, hnd, rfl, ?_⟩
        split at h
        · exact Or.inl ⟨by assumption, h⟩
        · rename_i hne
          exact Or.inr ⟨Bool.eq_false_iff.mpr (fun he => hne he), h⟩
  · cases h

/-- Decompose a successful exact-header mapping. -/
theorem mkOutExact_eq {s : Sheet} {out : List (String × List Cell)}
    (h : mkOutExact s = some out) :
    ∃ ys ns as_ vs, getCol s "Year" = some ys ∧ getCol s "Number of Funds" = some ns ∧
      getCol s "Total Amount" = some as_ ∧ getCol s "Average Fund Size" = some vs ∧
      out = [("Year", ys), ("Number of Funds", ns), ("Amount Closed", as_),
             ("Average Fund Size", vs)] := by
  rw [mkOutExact] at h
  rcases Option.bind_eq_some.mp h with ⟨ys, hy, h⟩
  rcases Option.bind_eq_some.mp h with ⟨ns, hn, h⟩
  rcases Option.bind_eq_some.mp h with ⟨as_, ha, h⟩
  rcases Option.bind_eq_some.mp h with ⟨vs, hv, h⟩
  exact ⟨ys, ns, as_, vs, hy, hn, ha, hv, by cases h; rfl⟩

/-- Decompose a successful keyword/positional mapping. -/
theorem mkOutKeyword_eq {s : Sheet} {out : List (String × List Cell)}
    (h : mkOutKeyword s = some out) :
    ∃ yn ys ns as_ vs,
      (fillPositional (s.map Prod.fst) (pickLoop (s.map Prod.fst))).year? = some yn ∧
      getCol s yn = some ys ∧
      ((fillPositional (s.map Prod.fst) (pickLoop (s.map Prod.fst))).num? = none ∧
          ns = List.replicate (nrows s) Cell.null ∨
        ∃ n cs, (fillPositional (s.map Prod.fst) (pickLoop (s.map Prod.fst))).num? = some n ∧
          getCol s n = some cs ∧ ns = coerceCells cs) ∧
      ((fillPositional (s.map Prod.fst) (pickLoop (s.map Prod.fst))).amount? = none ∧
          as_ = List.replicate (nrows s) Cell.null ∨
        ∃ n cs, (fillPositional (s.map Prod.fst) (pickLoop (s.map Prod.fst))).amount? = some n ∧
          getCol s n = some cs ∧ as_ = coerceCells cs) ∧
      ((fillPositional (s.map Prod.fst) (pickLoop (s.map Prod.fst))).avg? = none ∧
          vs = List.replicate (nrows s) Cell.null ∨
        ∃ n cs, (fillPositional (s.map Prod.fst) (pickLoop (s.map Prod.fst))).avg? = some n ∧
          getCol s n = some cs ∧ vs = coerceCells cs) ∧
      out = [("Year", coerceCells ys), ("Number of Funds", ns), ("Amount Closed", as_),
             ("Average Fund Size", vs)] := by
  rw [mkOutKeyword] at h
  rcases Option.bind_eq_some.mp h with ⟨yn, hyn, h⟩
  rcases Option.bind_eq_some.mp h with ⟨ys, hys, h⟩
  rcases Option.bind_eq_some.mp h with ⟨ns, hns, h⟩
  rcases Option.bind_eq_some.mp h with ⟨as_, has, h⟩
  rcases Option.bind_eq_some.mp h with ⟨vs, hvs, h⟩
  refine ⟨yn, ys, ns, as_, vs, hyn, hys, ?_, ?_, ?_, by cases h; rfl⟩
  · revert hns
    cases hnum : (fillPositional (s.map Prod.fst) (pickLoop (s.map Prod.fst))).num? with
    | none => intro hns; exact Or.inl ⟨rfl, by cases hns; rfl⟩
    | some n =>
        intro hns
        rcases Option.map_eq_some'.mp hns with ⟨cs, hcs, hcse⟩
        exact Or.inr ⟨n, cs, rfl, hcs, hcse.symm⟩
  · revert has
    cases hamt : (fillPositional (s.map Prod.fst) (pickLoop (s.map Prod.fst))).amount? with
    | none => intro has; exact Or.inl ⟨rfl, by cases has; rfl⟩
    | some n =>
        intro has
        rcases Option.map_eq_some'.mp has with ⟨cs, hcs, hcse⟩
        exact Or.inr ⟨n, cs, rfl, hcs, hcse.symm⟩
  · revert hvs
    cases havg : (fillPositional (s.map Prod.fst) (pickLoop (s.map Prod.fst))).avg? with
    | none => intro hvs; exact Or.inl ⟨rfl, by cases hvs; rfl⟩
    | some n =>
        intro hvs
        rcases Option.map_eq_some'.mp hvs with ⟨cs, hcs, hcse⟩
        exact Or.inr ⟨n, cs, rfl, hcs, hcse.symm⟩

/-- The mapped frame always has exactly the four output columns, named
`Year`, `Number of Funds`, `Amount Closed`, `Average Fund Size`, and the
cells of its Year column coerce like cells of the original sheet. -/
theorem preframe_shape {s0 : Sheet} {out : List (String × List Cell)}
    (h : preframe s0 = some out) :
    ∃ y n a v, out = [y, n, a, v] ∧ out.map Prod.fst = outNames ∧
      (∀ c ∈ y.2, ∃ c0, inSheet s0 c0 ∧ to_number c = to_number c0) := by
  rcases preframe_cases h with ⟨s2, _, hs2, hpath⟩
  have hcells := stage_cells hs2
  rcases hpath with ⟨_, hex⟩ | ⟨_, hkw⟩
  · rcases mkOutExact_eq hex with ⟨ys, ns, as_, vs, hy, _, _, _, hout⟩
    subst hout
    refine ⟨_, _, _, _, rfl, rfl, ?_⟩
    intro c hc
    rcases getCol_mem hy with ⟨p, hp, _, hpc⟩
    exact ⟨c, hcells p hp c (hpc ▸ hc), rfl⟩
  · rcases mkOutKeyword_eq hkw with ⟨yn, ys, ns, as_, vs, _, hys, _, _, _, hout⟩
    subst hout
    refine ⟨_, _, _, _, rfl, rfl, ?_⟩
    intro c hc
    rcases List.mem_map.mp hc with ⟨c0, hc0, hce⟩
    rcases getCol_mem hys with ⟨p, hp, _, hpc⟩
    exact ⟨c0, hcells p hp c0 (hpc ▸ hc0), by rw [← hce, to_number_optToCell]⟩

/-! ### Concrete example sheets used by witnesses and counterexamples -/

/-- A canonical-header sheet with two well-formed rows, years out of order,
and one currency-formatted amount. -/
def exA : Sheet :=
  [("Year", [Cell.str "2010", Cell.str "2006"]),
   ("Number of Funds", [Cell.str "1", Cell.str "2"]),
   ("Total Amount", [Cell.str "$1,234", Cell.str "4"]),
   ("Average Fund Size", [Cell.str "5", Cell.str "6"])]

/-- `preframe exA`: the exact-header path keeps the raw cells under the
renamed labels. -/
def exAOut : List (String × List Cell) :=
  [("Year", [Cell.str "2010", Cell.str "2006"]),
   ("Number of Funds", [Cell.str "1", Cell.str "2"]),
   ("Amount Closed", [Cell.str "$1,234", Cell.str "4"]),
   ("Average Fund Size", [Cell.str "5", Cell.str "6"])]

/-- `load_data exA`. -/
def exAFrame : Frame :=
  Frame.mk outNames
    [Row.mk 2006 (some 2) (some 4) (some 6), Row.mk 2010 (some 1) (some 1234) (some 5)]

/-- A canonical-header sheet whose second row has a Year cell that does not
coerce to a number. -/
def exB : Sheet :=
  [("Year", [Cell.str "2006", Cell.str "xx"]),
   ("Number of Funds", [Cell.str "1", Cell.str "2"]),
   ("Total Amount", [Cell.str "3", Cell.str "4"]),
   ("Average Fund Size", [Cell.str "5", Cell.str "6"])]

/-- A canonical-header sheet in which two rows carry the same Year. -/
def exDup : Sheet :=
  [("Year", [Cell.str "2006", Cell.str "2006"]),
   ("Number of Funds", [Cell.str "1", Cell.str "2"]),
   ("Total Amount", [Cell.str "3", Cell.str "4"]),
   ("Average Fund Size", [Cell.str "5", Cell.str "6"])]

/-! ### Claims -/

/-- Claim C3: for every input sheet, the table returned by `load_data` has
its rows sorted in ascending order of the Year column. -/
theorem c3_rows_sorted_by_year (s : Sheet) (f : Frame) (h : load_data s = some f) :
    f.rows.Sorted rowLE := by
  rw [load_data] at h
  rcases Option.map_eq_some'.mp h with ⟨out, _, hf⟩
  rw [← hf]
  exact sorted_sortRows _

/-- Witness for C3 at a concrete sheet whose input years arrive out of
order. -/
theorem c3_rows_sorted_by_year_witness :
    load_data exA = some exAFrame ∧ exAFrame.rows.Sorted rowLE :=
  ⟨by decide, c3_rows_sorted_by_year exA exAFrame (by decide)⟩

/-- Claim C5 (counterexample): duplicate input years survive `load_data`
unchanged, so the Year values of the output are not always unique. -/
theorem c5_counterexample :
    load_data exDup =
      some (Frame.mk outNames
        [Row.mk 2006 (some 1) (some 3) (some 5), Row.mk 2006 (some 2) (some 4) (some 6)]) ∧
    ¬ (List.map Row.year
        [Row.mk 2006 (some (1 : Rat)) (some 3) (some 5),
         Row.mk 2006 (some 2) (some 4) (some 6)]).Nodup :=
  ⟨by decide, by decide⟩

/-- Claim C5 (amended): the Year values of the output table are unique
whenever the years of the filtered, pre-sort rows are pairwise distinct;
`load_data` never deduplicates years itself. -/
theorem c5_amended_year_unique (s : Sheet) (out : List (String × List Cell)) (f : Frame)
    (hp : preframe s = some out) (h : load_data s = some f)
    (hu : ((rowsOf out).map Row.year).Nodup) : (f.rows.map Row.year).Nodup := by
  rw [load_data, hp] at h
  cases h
  exact (((sortRows_perm (rowsOf out)).map Row.year).nodup_iff).mpr hu

/-- Witness for C5 (amended) at a concrete sheet with distinct years. -/
theorem c5_amended_year_unique_witness :
    (exAFrame.rows.map Row.year).Nodup :=
  c5_amended_year_unique exA exAOut exAFrame (by decide) (by decide) (by decide)

/-- Claim C8: whenever the column-mapping stage succeeds, `load_data`
returns without error, and the surviving rows are exactly those whose
(coerced) Year cell is numeric — rows with a non-coercing Year cell are
silently dropped, rows with a coercing Year cell are kept. -/
theorem c8_year_null_filter (s : Sheet) (out : List (String × List Cell))
    (h : preframe s = some out) :
    ∃ f y n a v, load_data s = some f ∧ out = [y, n, a, v] ∧
      f.rows.Perm
        ((zip4 (coerceCol y.2) (coerceCol n.2) (coerceCol a.2) (coerceCol v.2)).filterMap
          (fun x => x.1.map (fun qy => Row.mk (ratTrunc qy) x.2.1 x.2.2.1 x.2.2.2))) := by
  rcases preframe_shape h with ⟨y, n, a, v, hout, _, _⟩
  refine ⟨Frame.mk (out.map Prod.fst) (sortRows (rowsOf out)), y, n, a, v, ?_, hout, ?_⟩
  · rw [load_data, h]; rfl
  · subst hout
    exact sortRows_perm _

/-- Witness for C8: a sheet with one well-formed and one malformed row; the
mapping stage succeeds, loading succeeds, and only the coercible-Year row
survives. -/
theorem c8_year_null_filter_witness :
    ∃ f y n a v, load_data exB = some f ∧
      [("Year", [Cell.str "2006", Cell.str "xx"]),
       ("Number of Funds", [Cell.str "1", Cell.str "2"]),
       ("Amount Closed", [Cell.str "3", Cell.str "4"]),
       ("Average Fund Size", [Cell.str "5", Cell.str "6"])] = [y, n, a, v] ∧
      f.rows.Perm
        ((zip4 (coerceCol y.2) (coerceCol n.2) (coerceCol a.2) (coerceCol v.2)).filterMap
          (fun x => x.1.map (fun qy => Row.mk (ratTrunc qy) x.2.1 x.2.2.1 x.2.2.2))) :=
  c8_year_null_filter exB _ (by decide)

/-- Claim C9: the script shows an error message and stops exactly when the
data file is missing or reading/loading it fails; otherwise the chart is
rendered from the loaded table and no error is shown. -/
theorem c9_error_handling (e : Bool) (r : Option Sheet) :
    ((∃ m, appMain e r = Outcome.errorStop m) ↔ (e = false ∨ r.bind load_data = none)) ∧
    (∀ s f, e = true → r = some s → load_data s = some f →
      appMain e r = Outcome.rendered f) := by
  constructor
  · constructor
    · intro ⟨m, hm⟩
      cases e with
      | false => exact Or.inl rfl
      | true =>
          refine Or.inr ?_
          cases r with
          | none => rfl
          | some s =>
              cases hl : load_data s with
              | none => simp [Option.bind, hl]
              | some f => rw [appMain] at hm; simp [hl] at hm
    · intro h
      rcases h with h | h
      · subst h; exact ⟨_, rfl⟩
      · cases e with
        | false => exact ⟨_, rfl⟩
        | true =>
            cases r with
            | none => exact ⟨_, rfl⟩
            | some s =>
                have hl : load_data s = none := by simpa [Option.bind] using h
                refine ⟨"Failed to read the Excel file. Please check the file format and headers.", ?_⟩
                rw [appMain]
                simp [hl]
  · intro s f he hr hl
    subst he
    subst hr
    rw [appMain]
    simp [hl]

/-- Witness for C9: with the file present and a readable sheet, the chart is
rendered and no error is shown. -/
theorem c9_error_handling_witness :
    appMain true (some exA) = Outcome.rendered exAFrame :=
  (c9_error_handling true (some exA)).2 exA exAFrame rfl rfl (by decide)

/-- Claim C10: every successfully loaded table has exactly the four columns
"Year", "Number of Funds", "Amount Closed", "Average Fund Size", in that
order, regardless of the input sheet. -/
theorem c10_output_column_names (s : Sheet) (f : Frame) (h : load_data s = some f) :
    f.names = outNames := by
  rw [load_data] at h
  rcases Option.map_eq_some'.mp h with ⟨out, hout, hf⟩
  rcases preframe_shape hout with ⟨y, n, a, v, _, hnames, _⟩
  rw [← hf]
  exact hnames

/-- Witness for C10 at a concrete sheet. -/
theorem c10_output_column_names_witness :
    load_data exA = some exAFrame ∧ exAFrame.names = outNames :=
  ⟨by decide, c10_output_column_names exA exAFrame (by decide)⟩

theorem filter_eq_self_of_all {α : Type} {p : α → Bool} {l : List α}
    (h : ∀ a ∈ l, p a = true) : l.filter p = l := by
  induction l with
  | nil => rfl
  | cons a t ih =>
      rw [List.filter_cons, if_pos (h a (List.mem_cons_self a t))]
      rw [ih (fun x hx => h x (List.mem_cons_of_mem a hx))]

theorem promote_length {s s' : Sheet} (h : promote s = some s') :
    s'.length = s.length := by
  rw [promote] at h
  split at h
  · split at h
    · cases h
    · split at h
      · cases h
        rw [List.length_map, List.length_zip, List.length_map, Nat.min_self]
      · cases h
        rfl
  · cases h
    rfl

theorem isNull_false_of_coercible {c : Cell} (h : (to_number c).isSome = true) :
    c.isNull = false := by
  cases c with
  | null => simp [to_number] at h
  | str s => rfl
  | num q => rfl

theorem fillPositional_metrics_isSome {cols : List String} (h4 : 4 ≤ cols.length)
    (p : Picks) :
    (fillPositional cols p).num?.isSome = true ∧
    (fillPositional cols p).amount?.isSome = true ∧
    (fillPositional cols p).avg?.isSome = true := by
  have hget : ∀ i, i < cols.length → (cols.get? i).isSome = true := by
    intro i hi
    rw [List.get?_eq_get hi]
    rfl
  refine ⟨?_, ?_, ?_⟩
  · show (p.num? <|> cols.get? 1).isSome = true
    cases p.num? with
    | some n => rfl
    | none => rw [Option.none_orElse]; exact hget 1 (by omega)
  · show (p.amount? <|> cols.get? 2).isSome = true
    cases p.amount? with
    | some n => rfl
    | none => rw [Option.none_orElse]; exact hget 2 (by omega)
  · show (p.avg? <|> cols.get? 3).isSome = true
    cases p.avg? with
    | some n => rfl
    | none => rw [Option.none_orElse]; exact hget 3 (by omega)

/-- Values read off a column that was fetched from the mapped sheet are
coercible whenever every cell of that sheet is. -/
theorem metric_isSome {s2 : Sheet}
    (hcell2 : ∀ p ∈ s2, ∀ c ∈ p.2, (to_number c).isSome = true)
    {cs : List Cell} {n : String} (hg : getCol s2 n = some cs) {o : Option Rat}
    (ho : o ∈ coerceCol cs) : o.isSome = true := by
  rcases List.mem_map.mp ho with ⟨c, hc, hce⟩
  rcases getCol_mem hg with ⟨p, hp, _, hpc⟩
  rw [← hce]
  exact hcell2 p hp c (hpc ▸ hc)

/-- A column that the spec describes as lone-symbol-only satisfies the
code's `is_symbol_col` test. -/
theorem is_symbol_col_of_lone {cells : List Cell} (hl : loneSymbolCol cells) :
    is_symbol_col cells = true := by
  rcases hl with ⟨⟨c0, hc0, hc0n⟩, v, hv, hall⟩
  rcases hall c0 hc0 hc0n with ⟨w0, hw0, _⟩
  have hany : cells.any Cell.isStr = true :=
    List.any_eq_true.mpr ⟨c0, hc0, by rw [hw0]; rfl⟩
  have hmem : ∀ x ∈ (cells.filter (fun c => !c.isNull)).map (fun c => stripStr (cellStr c)),
      x = v := by
    intro x hx
    rcases List.mem_map.mp hx with ⟨c, hcf, hce⟩
    have hcc := List.mem_filter.mp hcf
    have hcn : c ≠ Cell.null := by
      intro he
      subst he
      simp [Cell.isNull] at hcc
    rcases hall c hcc.1 hcn with ⟨w, hw, hsv⟩
    rw [← hce, hw]
    exact hsv
  have hne : (cells.filter (fun c => !c.isNull)).map (fun c => stripStr (cellStr c)) ≠ [] := by
    exact List.ne_nil_of_mem
      (List.mem_map_of_mem (fun c => stripStr (cellStr c))
        (List.mem_filter.mpr ⟨hc0, by rw [hw0]; rfl⟩))
  rw [is_symbol_col, if_pos hany]
  cases hL : (cells.filter (fun c => !c.isNull)).map (fun c => stripStr (cellStr c)) with
  | nil => exact absurd hL hne
  | cons w rest =>
      have hwv : w = v := hmem w (hL ▸ List.mem_cons_self w rest)
      have hrest : rest.all (fun x => x == w) = true := by
        apply List.all_eq_true.mpr
        intro x hx
        have : x = v := hmem x (hL ▸ List.mem_cons_of_mem w hx)
        simp [this, hwv]
      show ((rest.all fun x => x == w) && (w == "$" || w == "USD" || w == "US$" || w == "")) = true
      rw [hrest]
      subst hwv
      simp only [List.mem_cons, List.not_mem_nil, or_false] at hv
      rcases hv with h1 | h1 | h1 | h1 <;> subst h1 <;> rfl

/-- Claim C7: an input column whose non-null values all strip to one lone
currency symbol (or the empty string) is dropped before any column mapping
takes place. -/
theorem c7_symbol_col_dropped (s : Sheet) (p : Col) (_hp : p ∈ s)
    (hl : loneSymbolCol p.2) : p ∉ dropSymbolCols (dropAllNull s) := by
  intro hmem
  have h2 := (List.mem_filter.mp hmem).2
  rw [is_symbol_col_of_lone hl] at h2
  cases h2

/-- Witness for C7: a column holding only " $ " is dropped. -/
theorem c7_symbol_col_dropped_witness :
    loneSymbolCol [Cell.str " $ "] ∧
    ("Cur", [Cell.str " $ "]) ∉
      dropSymbolCols (dropAllNull
        [("Year", [Cell.str "2006"]), ("Cur", [Cell.str " $ "])]) := by
  have hl : loneSymbolCol [Cell.str " $ "] := by
    refine ⟨⟨Cell.str " $ ", List.mem_singleton.mpr rfl, by simp⟩, "$", by simp, ?_⟩
    intro c hc _
    rw [List.mem_singleton.mp hc]
    exact ⟨" $ ", rfl, by decide⟩
  exact ⟨hl, c7_symbol_col_dropped
    [("Year", [Cell.str "2006"]), ("Cur", [Cell.str " $ "])]
    ("Cur", [Cell.str " $ "]) (by simp) hl⟩

/-! ### Lemmas about the numeric parser, for the currency claim -/

theorem not_ws_of_digit {c : Char} (h : c.isDigit = true) : c.isWhitespace = false := by
  by_contra hw
  rw [Bool.not_eq_false] at hw
  simp only [Char.isWhitespace, Bool.or_eq_true, beq_iff_eq, decide_eq_true_eq] at hw
  rcases hw with ((h1 | h1) | h1) | h1 <;> subst h1 <;> exact absurd h (by decide)

theorem dropWhile_eq_self_of_all {α : Type} {p : α → Bool} {l : List α}
    (h : ∀ c ∈ l, p c = false) : l.dropWhile p = l := by
  cases l with
  | nil => rfl
  | cons c t => simp [List.dropWhile_cons, h c (List.mem_cons_self c t)]

theorem takeWhile_eq_self_of_all {α : Type} {p : α → Bool} {l : List α}
    (h : ∀ c ∈ l, p c = true) : l.takeWhile p = l := by
  induction l with
  | nil => rfl
  | cons c t ih =>
      rw [List.takeWhile_cons, h c (List.mem_cons_self c t)]
      simp only [ite_true]
      rw [ih (fun x hx => h x (List.mem_cons_of_mem c hx))]

theorem dropWhile_eq_nil_of_all {α : Type} {p : α → Bool} {l : List α}
    (h : ∀ c ∈ l, p c = true) : l.dropWhile p = [] := by
  induction l with
  | nil => rfl
  | cons c t ih =>
      rw [List.dropWhile_cons, h c (List.mem_cons_self c t)]
      simp only [ite_true]
      exact ih (fun x hx => h x (List.mem_cons_of_mem c hx))

/-- On a string of digits, whitespace trimming is the identity. -/
theorem trimChars_of_digits {l : List Char} (h : ∀ c ∈ l, c.isDigit = true) :
    trimChars l = l := by
  rw [trimChars]
  rw [dropWhile_eq_self_of_all (fun c hc => not_ws_of_digit (h c hc))]
  rw [dropWhile_eq_self_of_all
    (fun c hc => not_ws_of_digit (h c (List.mem_reverse.mp hc)))]
  exact List.reverse_reverse l

/-- `digitsVal` agrees with Mathlib's base-10 digit evaluation. -/
theorem digitsVal_eq_ofDigits (l : List Char) :
    digitsVal l = Nat.ofDigits 10 ((l.map (fun c => c.toNat - 48)).reverse) := by
  induction l using List.reverseRecOn with
  | nil => rfl
  | append_singleton t d ih =>
      rw [digitsVal, List.foldl_append]
      rw [List.map_append, List.reverse_append]
      simp only [List.map_cons, List.map_nil, List.reverse_cons, List.reverse_nil,
        List.nil_append, List.singleton_append, List.foldl_cons, List.foldl_nil]
      rw [Nat.ofDigits_cons, ← digitsVal, ih]
      omega

/-- `parseNum` on a nonempty all-digit string returns its decimal value. -/
theorem parseNum_digits {l : List Char} (hne : l ≠ [])
    (h : ∀ c ∈ l, c.isDigit = true) :
    parseNum l = some ((digitsVal l : Nat) : Rat) := by
  rw [parseNum, trimChars_of_digits h]
  cases l with
  | nil => exact absurd rfl hne
  | cons c t =>
      have hc : c.isDigit = true := h c (List.mem_cons_self c t)
      have hcm : c ≠ '-' := by intro he; subst he; simp [Char.isDigit] at hc
      have hcp : c ≠ '+' := by intro he; subst he; simp [Char.isDigit] at hc
      simp only [hcm, hcp, if_false]
      rw [parseDigits]
      simp only [takeWhile_eq_self_of_all h, dropWhile_eq_nil_of_all h]
      simp

/-- Claim C2: a cell holding a dollar sign followed by digits with comma
thousands separators coerces to the decimal value of its digits (e.g.
"$1,234" coerces to 1234). -/
theorem c2_currency_coercion (t : String)
    (hall : ∀ c ∈ t.toList, c.isDigit = true ∨ c = ',')
    (hdig : ∃ c ∈ t.toList, c.isDigit = true) :
    to_number (Cell.str ("$" ++ t)) =
      some ((Nat.ofDigits 10
        (((t.toList.filter Char.isDigit).map (fun c => c.toNat - 48)).reverse) : Nat) : Rat) := by
  rw [to_number]
  have htl : ("$" ++ t).toList = '$' :: t.toList := by
    cases t
    rfl
  rw [htl, stripCurrencyChars]
  have hdrop : List.filter (fun c => !(c == '$' || c == ',')) ('$' :: t.toList) =
      List.filter (fun c => !(c == '$' || c == ',')) t.toList := by
    rw [List.filter_cons]
    simp
  rw [hdrop]
  have hfil : t.toList.filter (fun c => !(c == '$' || c == ',')) =
      t.toList.filter Char.isDigit := by
    apply List.filter_congr
    intro c hc
    rcases hall c hc with hd | hcomma
    · have h1 : c ≠ '$' := by intro he; subst he; simp [Char.isDigit] at hd
      have h2 : c ≠ ',' := by intro he; subst he; simp [Char.isDigit] at hd
      simp [h1, h2, hd]
    · subst hcomma
      simp [Char.isDigit]
  rw [hfil]
  have hds : ∀ c ∈ t.toList.filter Char.isDigit, c.isDigit = true :=
    fun c hc => (List.mem_filter.mp hc).2
  have hne : t.toList.filter Char.isDigit ≠ [] := by
    rcases hdig with ⟨c, hc, hd⟩
    exact List.ne_nil_of_mem (List.mem_filter.mpr ⟨hc, hd⟩)
  rw [parseNum_digits hne hds, digitsVal_eq_ofDigits]

/-- A canonical-header sheet with a negative Year value. -/
def exNeg : Sheet :=
  [("Year", [Cell.str "-3"]),
   ("Number of Funds", [Cell.str "1"]),
   ("Total Amount", [Cell.str "2"]),
   ("Average Fund Size", [Cell.str "3"])]

/-- A canonical-header sheet all of whose cells coerce to values at least 1. -/
def exPos : Sheet :=
  [("Year", [Cell.str "2006"]),
   ("Number of Funds", [Cell.str "5"]),
   ("Total Amount", [Cell.str "7"]),
   ("Average Fund Size", [Cell.str "8"])]

/-- Truncation of a rational at least 1 is positive. -/
theorem ratTrunc_pos {q : Rat} (h : 1 ≤ q) : 0 < ratTrunc q := by
  rw [ratTrunc, if_pos (le_trans zero_le_one h)]
  have h1 : (1 : Int) ≤ ⌊q⌋ := by
    rw [Int.le_floor]
    exact_mod_cast h
  omega

/-- Claim C4 (counterexample): `load_data` keeps rows with non-positive
years, so a surviving Year value need not be positive. -/
theorem c4_counterexample :
    load_data exNeg =
      some (Frame.mk outNames [Row.mk (-3) (some 1) (some 2) (some 3)]) ∧
    ¬ (0 < (-3 : Int)) :=
  ⟨by decide, by decide⟩

/-- Claim C4 (amended): every surviving row's Year is an integer obtained by
truncating the coerced year cell, and it is positive provided every numeric
value coerced from the sheet's cells is at least 1; the code itself never
checks positivity. -/
theorem c4_amended_year_positive (s : Sheet) (f : Frame) (h : load_data s = some f)
    (hpos : ∀ p ∈ s, ∀ c ∈ p.2, 1 ≤ (to_number c).getD 1) :
    ∀ r ∈ f.rows, 0 < r.year := by
  rw [load_data] at h
  rcases Option.map_eq_some'.mp h with ⟨out, hout, hf⟩
  rcases preframe_shape hout with ⟨y, n, a, v, hsh, _, hyear⟩
  intro r hr
  rw [← hf] at hr
  have hr2 : r ∈ rowsOf out := ((sortRows_perm (rowsOf out)).mem_iff).mp hr
  rw [hsh, rowsOf] at hr2
  rcases List.mem_filterMap.mp hr2 with ⟨x, hx, hfx⟩
  rcases Option.map_eq_some'.mp hfx with ⟨qy, hq1, hq2⟩
  have hx1 : x.1 ∈ coerceCol y.2 := (mem_zip4 hx).1
  rcases List.mem_map.mp hx1 with ⟨c, hc, hce⟩
  rcases hyear c hc with ⟨c0, ⟨p, hps, hc0p⟩, hnum⟩
  have hc0 : to_number c0 = some qy := by rw [← hnum, hce, hq1]
  have := hpos p hps c0 hc0p
  rw [hc0] at this
  have hqy : 1 ≤ qy := by simpa using this
  rw [← hq2]
  exact ratTrunc_pos hqy

/-- Witness for C4 (amended) at a concrete sheet whose cells all coerce to
values at least 1. -/
theorem c4_amended_year_positive_witness :
    0 < (Row.mk 2006 (some (5 : Rat)) (some 7) (some 8)).year :=
  c4_amended_year_positive exPos (Frame.mk outNames [Row.mk 2006 (some 5) (some 7) (some 8)])
    (by decide) (by decide) (Row.mk 2006 (some 5) (some 7) (some 8))
    (List.mem_singleton.mpr rfl)

/-- A canonical-header sheet whose Number-of-Funds cell does not coerce. -/
def exBadMetric : Sheet :=
  [("Year", [Cell.str "2006"]),
   ("Number of Funds", [Cell.str "abc"]),
   ("Total Amount", [Cell.str "3"]),
   ("Average Fund Size", [Cell.str "5"])]

/-- Claim C6 (counterexample): a row whose Year coerces survives even when a
metric cell does not coerce, leaving a null metric value in the output. -/
theorem c6_counterexample :
    load_data exBadMetric =
      some (Frame.mk outNames [Row.mk 2006 none (some 3) (some 5)]) ∧
    ¬ ((none : Option Rat).isSome = true) :=
  ⟨by decide, by decide⟩

/-- Claim C6 (amended): the three metric values of every output row are
non-null provided the sheet has at least four columns, none of them empty,
none of them a lone-symbol column, and every cell coerces to a number; the
row filter itself only checks the Year column. -/
theorem c6_amended_metrics_nonnull (s : Sheet) (f : Frame) (h : load_data s = some f)
    (h4 : 4 ≤ s.length)
    (hne : ∀ p ∈ s, p.2 ≠ [])
    (hsym : ∀ p ∈ s, is_symbol_col p.2 = false)
    (hco : ∀ p ∈ s, ∀ c ∈ p.2, (to_number c).isSome = true) :
    ∀ r ∈ f.rows,
      r.numFunds.isSome = true ∧ r.amountClosed.isSome = true ∧
        r.avgFundSize.isSome = true := by
  have hs1 : dropAllNull s = s := by
    apply filter_eq_self_of_all
    intro p hp
    cases hp2 : p.2 with
    | nil => exact absurd hp2 (hne p hp)
    | cons c t =>
        have hcs := hco p hp c (hp2 ▸ List.mem_cons_self c t)
        simp [List.all_cons, isNull_false_of_coercible hcs]
  have hs2 : dropSymbolCols s = s := by
    apply filter_eq_self_of_all
    intro p hp
    simp [hsym p hp]
  rw [load_data] at h
  rcases Option.map_eq_some'.mp h with ⟨out, hout, hf⟩
  rcases preframe_cases hout with ⟨s2, _, hprom, hpath⟩
  rw [hs1, hs2] at hprom
  have hcell2 : ∀ p ∈ s2, ∀ c ∈ p.2, (to_number c).isSome = true := by
    intro p hp c hc
    rcases promote_cells hprom p hp with ⟨p0, hp0, hsub⟩
    exact hco p0 hp0 c (hsub c hc)
  have hlen2 : 4 ≤ s2.length := by rw [promote_length hprom]; exact h4
  intro r hr
  rw [← hf] at hr
  have hr2 : r ∈ rowsOf out := (sortRows_perm (rowsOf out)).mem_iff.mp hr
  rcases hpath with ⟨_, hex⟩ | ⟨_, hkw⟩
  · rcases mkOutExact_eq hex with ⟨ys, ns, as_, vs, _, hn, ha, hv, hsh⟩
    subst hsh
    rw [rowsOf] at hr2
    rcases List.mem_filterMap.mp hr2 with ⟨x, hx, hfx⟩
    rcases Option.map_eq_some'.mp hfx with ⟨qy, _, hq2⟩
    obtain ⟨_, hx2, hx3, hx4⟩ := mem_zip4 hx
    rw [← hq2]
    exact ⟨metric_isSome hcell2 hn hx2, metric_isSome hcell2 ha hx3,
      metric_isSome hcell2 hv hx4⟩
  · rcases mkOutKeyword_eq hkw with ⟨yn, ys, ns, as_, vs, _, _, hnum, hamt, havg, hsh⟩
    subst hsh
    have hlc : 4 ≤ (s2.map Prod.fst).length := by rw [List.length_map]; exact hlen2
    obtain ⟨hn_some, ha_some, hv_some⟩ :=
      fillPositional_metrics_isSome hlc (pickLoop (s2.map Prod.fst))
    rw [rowsOf] at hr2
    rcases List.mem_filterMap.mp hr2 with ⟨x, hx, hfx⟩
    rcases Option.map_eq_some'.mp hfx with ⟨qy, _, hq2⟩
    obtain ⟨_, hx2, hx3, hx4⟩ := mem_zip4 hx
    rw [← hq2]
    refine ⟨?_, ?_, ?_⟩
    · rcases hnum with ⟨hnone, _⟩ | ⟨n, cs, _, hg, hcse⟩
      · rw [hnone] at hn_some; cases hn_some
      · subst hcse
        rw [coerceCol_coerceCells] at hx2
        exact metric_isSome hcell2 hg hx2
    · rcases hamt with ⟨hnone, _⟩ | ⟨n, cs, _, hg, hcse⟩
      · rw [hnone] at ha_some; cases ha_some
      · subst hcse
        rw [coerceCol_coerceCells] at hx3
        exact metric_isSome hcell2 hg hx3
    · rcases havg with ⟨hnone, _⟩ | ⟨n, cs, _, hg, hcse⟩
      · rw [hnone] at hv_some; cases hv_some
      · subst hcse
        rw [coerceCol_coerceCells] at hx4
        exact metric_isSome hcell2 hg hx4

/-- Witness for C6 (amended) at a concrete fully-coercible sheet. -/
theorem c6_amended_metrics_nonnull_witness :
    (Row.mk 2006 (some (5 : Rat)) (some 7) (some 8)).numFunds.isSome = true ∧
    (Row.mk 2006 (some (5 : Rat)) (some 7) (some 8)).amountClosed.isSome = true ∧
    (Row.mk 2006 (some (5 : Rat)) (some 7) (some 8)).avgFundSize.isSome = true :=
  c6_amended_metrics_nonnull exPos (Frame.mk outNames [Row.mk 2006 (some 5) (some 7) (some 8)])
    (by decide) (by decide) (by decide) (by decide) (by decide)
    (Row.mk 2006 (some 5) (some 7) (some 8)) (List.mem_singleton.mpr rfl)

/-- Witness for C2 at the spec's own example "$1,234". -/
theorem c2_currency_coercion_witness :
    (∀ c ∈ "1,234".toList, c.isDigit = true ∨ c = ',') ∧
    to_number (Cell.str ("$" ++ "1,234")) =
      some ((Nat.ofDigits 10
        ((("1,234".toList.filter Char.isDigit).map (fun c => c.toNat - 48)).reverse) : Nat) : Rat) :=
  ⟨by decide, c2_currency_coercion "1,234" (by decide) (by decide)⟩

/-! ### Lemmas for the column-mapping claim -/

theorem pickStep_id {p : Picks} {c : String}
    (h : ∀ kw ∈ keywords, hasKw (toLowerStr c) kw = false) : pickStep p c = p := by
  have h1 := h "year" (by simp [keywords])
  have h2 := h "number" (by simp [keywords])
  have h3 := h "funds" (by simp [keywords])
  have h4 := h "amount" (by simp [keywords])
  have h5 := h "closed" (by simp [keywords])
  have h6 := h "total" (by simp [keywords])
  have h7 := h "average" (by simp [keywords])
  have h8 := h "avg" (by simp [keywords])
  simp [pickStep, h1, h2, h3, h4, h5, h6, h7, h8]

theorem foldl_pickStep_id :
    ∀ (cols : List String) (p : Picks),
      (∀ c ∈ cols, ∀ kw ∈ keywords, hasKw (toLowerStr c) kw = false) →
      cols.foldl pickStep p = p
  | [], _, _ => rfl
  | c :: t, p, h => by
      rw [List.foldl_cons, pickStep_id (h c (List.mem_cons_self c t))]
      exact foldl_pickStep_id t p (fun x hx kw hkw => h x (List.mem_cons_of_mem c hx) kw hkw)

theorem pickLoop_id {cols : List String}
    (h : ∀ c ∈ cols, ∀ kw ∈ keywords, hasKw (toLowerStr c) kw = false) :
    pickLoop cols = {} :=
  foldl_pickStep_id cols {} h

/-- The canonical-header half of the mapping claim. -/
theorem c1aux_named (s : Sheet)
    (hperm : (s.map Prod.fst).Perm canonKeys)
    (hnn : ∀ p ∈ s, p.2.all Cell.isNull = false)
    (hsym : ∀ p ∈ s, is_symbol_col p.2 = false) :
    load_data s = (specNamed s).map (fun rs => Frame.mk outNames rs) := by
  have hnd : (s.map Prod.fst).Nodup := hperm.nodup_iff.mpr (by decide)
  have hs1 : dropAllNull s = s :=
    filter_eq_self_of_all (fun p hp => by simp [hnn p hp])
  have hs2 : dropSymbolCols s = s :=
    filter_eq_self_of_all (fun p hp => by simp [hsym p hp])
  have hcol : ∀ k ∈ canonKeys, ∃ p ∈ s, p.1 = k := by
    intro k hk
    have : k ∈ s.map Prod.fst := hperm.mem_iff.mpr hk
    rcases List.mem_map.mp this with ⟨p, hp, he⟩
    exact ⟨p, hp, he⟩
  obtain ⟨py, hpy, hpy1⟩ := hcol "Year" (by simp [canonKeys])
  obtain ⟨pn, hpn, hpn1⟩ := hcol "Number of Funds" (by simp [canonKeys])
  obtain ⟨pa, hpa, hpa1⟩ := hcol "Total Amount" (by simp [canonKeys])
  obtain ⟨pv, hpv, hpv1⟩ := hcol "Average Fund Size" (by simp [canonKeys])
  have hgy : getCol s "Year" = some py.2 := by rw [← hpy1]; exact getCol_of_nodup hnd hpy
  have hgn : getCol s "Number of Funds" = some pn.2 := by
    rw [← hpn1]; exact getCol_of_nodup hnd hpn
  have hga : getCol s "Total Amount" = some pa.2 := by
    rw [← hpa1]; exact getCol_of_nodup hnd hpa
  have hgv : getCol s "Average Fund Size" = some pv.2 := by
    rw [← hpv1]; exact getCol_of_nodup hnd hpv
  have hnu : ¬ (s.all (fun c => startsWithStr c.1 "Unnamed") = true) := by
    intro hall
    have h := List.all_eq_true.mp hall py hpy
    rw [hpy1] at h
    exact absurd h (by decide)
  have hprom : promote s = some s := by rw [promote, if_neg hnu]
  have hexact : exactPathApplies s = true := by
    rw [exactPathApplies, List.all_eq_true]
    intro k hk
    have hmem : k ∈ s.map Prod.fst := hperm.mem_iff.mpr hk
    exact List.elem_eq_true_of_mem hmem
  have hmk : mkOutExact s =
      some [("Year", py.2), ("Number of Funds", pn.2), ("Amount Closed", pa.2),
            ("Average Fund Size", pv.2)] := by
    rw [mkOutExact, hgy, hgn, hga, hgv]
    rfl
  have hpre : preframe s =
      some [("Year", py.2), ("Number of Funds", pn.2), ("Amount Closed", pa.2),
            ("Average Fund Size", pv.2)] := by
    rw [preframe, hs1]
    rw [if_pos hnd, hs2, hprom]
    show (if exactPathApplies s = true then mkOutExact s else mkOutKeyword s) = _
    rw [if_pos hexact, hmk]
  have hspec : specNamed s =
      some (sortRows (buildRows (coerceCol py.2) (coerceCol pn.2) (coerceCol pa.2)
        (coerceCol pv.2))) := by
    rw [specNamed, hgy, hgn, hga, hgv]
    rfl
  rw [load_data, hpre, hspec]
  rfl

/-- The unheaded/positional half of the mapping claim. -/
theorem c1aux_positional (s : Sheet)
    (hnd : (s.map Prod.fst).Nodup)
    (hkw : ∀ n ∈ s.map Prod.fst, ∀ kw ∈ keywords, hasKw (toLowerStr n) kw = false)
    (hnn : ∀ p ∈ s, p.2.all Cell.isNull = false)
    (hsym : ∀ p ∈ s, is_symbol_col p.2 = false)
    (hprom : promote s = some s)
    (h4 : 4 ≤ s.length) :
    load_data s = (specPositional s).map (fun rs => Frame.mk outNames rs) := by
  have hs1 : dropAllNull s = s :=
    filter_eq_self_of_all (fun p hp => by simp [hnn p hp])
  have hs2 : dropSymbolCols s = s :=
    filter_eq_self_of_all (fun p hp => by simp [hsym p hp])
  have hl0 : 0 < s.length := by omega
  have hl1 : 1 < s.length := by omega
  have hl2 : 2 < s.length := by omega
  have hl3 : 3 < s.length := by omega
  have h0 : s.get? 0 = some (s.get ⟨0, hl0⟩) := List.get?_eq_get hl0
  have h1 : s.get? 1 = some (s.get ⟨1, hl1⟩) := List.get?_eq_get hl1
  have h2 : s.get? 2 = some (s.get ⟨2, hl2⟩) := List.get?_eq_get hl2
  have h3 : s.get? 3 = some (s.get ⟨3, hl3⟩) := List.get?_eq_get hl3
  have hexactF : exactPathApplies s = false := by
    apply Bool.eq_false_iff.mpr
    intro htrue
    have hY := List.all_eq_true.mp htrue "Year" (by simp [canonKeys])
    have hmem : "Year" ∈ s.map Prod.fst := by
      exact List.mem_of_elem_eq_true hY
    have hfalse := hkw "Year" hmem "year" (by simp [keywords])
    have htrue2 : hasKw (toLowerStr "Year") "year" = true := by decide
    rw [htrue2] at hfalse
    cases hfalse
  have hpick : pickLoop (s.map Prod.fst) = {} := pickLoop_id hkw
  have hm0 : (s.map Prod.fst).get? 0 = some (s.get ⟨0, hl0⟩).1 := by
    rw [List.get?_map, h0]; rfl
  have hm1 : (s.map Prod.fst).get? 1 = some (s.get ⟨1, hl1⟩).1 := by
    rw [List.get?_map, h1]; rfl
  have hm2 : (s.map Prod.fst).get? 2 = some (s.get ⟨2, hl2⟩).1 := by
    rw [List.get?_map, h2]; rfl
  have hm3 : (s.map Prod.fst).get? 3 = some (s.get ⟨3, hl3⟩).1 := by
    rw [List.get?_map, h3]; rfl
  have hg0 : getCol s (s.get ⟨0, hl0⟩).1 = some (s.get ⟨0, hl0⟩).2 :=
    getCol_of_nodup hnd (s.get_mem 0 hl0)
  have hg1 : getCol s (s.get ⟨1, hl1⟩).1 = some (s.get ⟨1, hl1⟩).2 :=
    getCol_of_nodup hnd (s.get_mem 1 hl1)
  have hg2 : getCol s (s.get ⟨2, hl2⟩).1 = some (s.get ⟨2, hl2⟩).2 :=
    getCol_of_nodup hnd (s.get_mem 2 hl2)
  have hg3 : getCol s (s.get ⟨3, hl3⟩).1 = some (s.get ⟨3, hl3⟩).2 :=
    getCol_of_nodup hnd (s.get_mem 3 hl3)
  have hfill : fillPositional (s.map Prod.fst) {} =
      Picks.mk (some (s.get ⟨0, hl0⟩).1) (some (s.get ⟨1, hl1⟩).1)
        (some (s.get ⟨2, hl2⟩).1) (some (s.get ⟨3, hl3⟩).1) := by
    rw [fillPositional]
    rw [show ({} : Picks).year? = none from rfl, show ({} : Picks).num? = none from rfl,
      show ({} : Picks).amount? = none from rfl, show ({} : Picks).avg? = none from rfl]
    rw [Option.none_orElse, Option.none_orElse, Option.none_orElse, Option.none_orElse]
    rw [hm0, hm1, hm2, hm3]
  have hmk : mkOutKeyword s =
      some [("Year", coerceCells (s.get ⟨0, hl0⟩).2),
            ("Number of Funds", coerceCells (s.get ⟨1, hl1⟩).2),
            ("Amount Closed", coerceCells (s.get ⟨2, hl2⟩).2),
            ("Average Fund Size", coerceCells (s.get ⟨3, hl3⟩).2)] := by
    rw [mkOutKeyword]
    rw [hpick, hfill]
    simp only [Option.bind_eq_bind', Option.some_bind', hg0, hg1, hg2, hg3,
      Option.map_some']
  have hpre : preframe s =
      some [("Year", coerceCells (s.get ⟨0, hl0⟩).2),
            ("Number of Funds", coerceCells (s.get ⟨1, hl1⟩).2),
            ("Amount Closed", coerceCells (s.get ⟨2, hl2⟩).2),
            ("Average Fund Size", coerceCells (s.get ⟨3, hl3⟩).2)] := by
    rw [preframe, hs1]
    rw [if_pos hnd, hs2, hprom]
    show (if exactPathApplies s = true then mkOutExact s else mkOutKeyword s) = _
    rw [hexactF]
    show (if False then mkOutExact s else mkOutKeyword s) = _
    rw [if_neg (fun h => h), hmk]
  have hspec : specPositional s =
      some (sortRows (buildRows (coerceCol (s.get ⟨0, hl0⟩).2) (coerceCol (s.get ⟨1, hl1⟩).2)
        (coerceCol (s.get ⟨2, hl2⟩).2) (coerceCol (s.get ⟨3, hl3⟩).2))) := by
    rw [specPositional, h0, h1, h2, h3]
    rfl
  have hrows : rowsOf
      [("Year", coerceCells (s.get ⟨0, hl0⟩).2),
       ("Number of Funds", coerceCells (s.get ⟨1, hl1⟩).2),
       ("Amount Closed", coerceCells (s.get ⟨2, hl2⟩).2),
       ("Average Fund Size", coerceCells (s.get ⟨3, hl3⟩).2)] =
      buildRows (coerceCol (s.get ⟨0, hl0⟩).2) (coerceCol (s.get ⟨1, hl1⟩).2)
        (coerceCol (s.get ⟨2, hl2⟩).2) (coerceCol (s.get ⟨3, hl3⟩).2) := by
    show buildRows (coerceCol (coerceCells (s.get ⟨0, hl0⟩).2))
        (coerceCol (coerceCells (s.get ⟨1, hl1⟩).2))
        (coerceCol (coerceCells (s.get ⟨2, hl2⟩).2))
        (coerceCol (coerceCells (s.get ⟨3, hl3⟩).2)) = _
    rw [coerceCol_coerceCells, coerceCol_coerceCells, coerceCol_coerceCells,
      coerceCol_coerceCells]
  rw [load_data, hpre, hspec]
  simp only [Option.map_some']
  rw [hrows]
  rfl

/-- A four-column sheet whose headers match no keyword. -/
def exABCD : Sheet :=
  [("A", [Cell.str "2007"]), ("B", [Cell.str "1"]),
   ("C", [Cell.str "2"]), ("D", [Cell.str "3"])]

/-- A canonical-header sheet whose "Total Amount" column holds only a lone
dollar sign. -/
def exDollarCol : Sheet :=
  [("Year", [Cell.str "2006"]),
   ("Number of Funds", [Cell.str "5"]),
   ("Total Amount", [Cell.str "$"]),
   ("Average Fund Size", [Cell.str "7"])]

/-- Claim C1 (counterexample): on a sheet whose columns are exactly the
canonical headers, the output "Amount Closed" column need not be the
coercion of the input "Total Amount" column: a lone-symbol "Total Amount"
column is dropped, the keyword/positional fallback re-maps "Amount Closed"
to the "Average Fund Size" column, and the output holds 7 where the named
input column coerces to null. -/
theorem c1_counterexample :
    load_data exDollarCol =
      some (Frame.mk outNames [Row.mk 2006 (some 5) (some 7) (some 7)]) ∧
    getCol exDollarCol "Total Amount" = some [Cell.str "$"] ∧
    to_number (Cell.str "$") = none :=
  ⟨by decide, by decide, by decide⟩

/-- Claim C1 (amended): (a) given a sheet whose columns are exactly the four
canonical headers, none all-null and none a lone-symbol column, the output
columns are the input columns of the same name, coerced, Year-filtered and
sorted; (b) given a sheet with at least four distinctly named columns none
of whose names matches any keyword, untouched by header promotion, with no
all-null or lone-symbol column, the four output columns are input columns
1, 2, 3, 4 in order, likewise coerced, filtered and sorted. -/
theorem c1_column_mapping (s : Sheet) :
    ((s.map Prod.fst).Perm canonKeys →
      (∀ p ∈ s, p.2.all Cell.isNull = false) →
      (∀ p ∈ s, is_symbol_col p.2 = false) →
      load_data s = (specNamed s).map (fun rs => Frame.mk outNames rs)) ∧
    ((s.map Prod.fst).Nodup →
      (∀ n ∈ s.map Prod.fst, ∀ kw ∈ keywords, hasKw (toLowerStr n) kw = false) →
      (∀ p ∈ s, p.2.all Cell.isNull = false) →
      (∀ p ∈ s, is_symbol_col p.2 = false) →
      promote s = some s →
      4 ≤ s.length →
      load_data s = (specPositional s).map (fun rs => Frame.mk outNames rs)) :=
  ⟨fun hperm hnn hsym => c1aux_named s hperm hnn hsym,
   fun hnd hkw hnn hsym hprom h4 => c1aux_positional s hnd hkw hnn hsym hprom h4⟩

/-- Witness for C1 (amended): the canonical-header example maps by name and
the keyword-free "A B C D" sheet maps positionally. -/
theorem c1_column_mapping_witness :
    load_data exA = (specNamed exA).map (fun rs => Frame.mk outNames rs) ∧
    load_data exABCD = (specPositional exABCD).map (fun rs => Frame.mk outNames rs) :=
  ⟨(c1_column_mapping exA).1 (by decide) (by decide) (by decide),
   (c1_column_mapping exABCD).2 (by decide) (by decide) (by decide) (by decide)
     (by decide) (by decide)⟩
